import Mathlib

/-!
# Verification of the ColourSpace Link protocol engine

Shallow embedding, in Lean 4, of the protocol engine of the `colourspace`
repository (`src/lan.rs` and the protocol-facing helpers of `src/main.rs`):

* the wire framer (`send_xml_on_stream`, `read_message_from_stream`),
* the streaming XML measurement parser (`parse_measurement_from_xml`),
* the receiver-side shared-state update and the sender-loop iteration of
  `spawn_worker`,
* the 8-bit canonicalization helper `color_to_u8_tuple` of `main.rs`.

Modelling conventions:
* Rust byte buffers become `List Nat` with every element `< 256`;
  machine integers are `Nat`/`Int` with explicit bounds where they matter.
* Rust `panic!` inside the parser is modelled as an error value of the
  `ParseError` type (it aborts parsing, which is all that is observable
  of it at the parser's boundary).
* `f32`/`f64` values are modelled exactly: the decimal-text grammar of
  Rust's float parsing is implemented over `ℚ`, with distinguished
  `inf`/`nan` cases; the parser only stores these values (it performs no
  float arithmetic), so the exact-rational abstraction of rounding is
  observationally silent here.
* The `quick_xml` tokenizer is external to the repository; the parser is
  embedded over its event stream (`XmlEvent`), whose `Text`/attribute
  payloads are the already-unescaped strings the Rust code sees.
-/

/-! ## Byte-level helpers: big-endian 32-bit headers, UTF-8 validity -/

/-- Big-endian byte quadruple of `n % 2^32`, as `i32::to_be_bytes` of the
reinterpreted unsigned value. -/
def toBeBytes32 (n : Nat) : List Nat :=
  [n / 2 ^ 24 % 256, n / 2 ^ 16 % 256, n / 2 ^ 8 % 256, n % 256]

/-- `i32::from_be_bytes`: assemble four bytes big-endian and reinterpret as a
signed 32-bit integer. -/
def fromBeBytesI32 (b0 b1 b2 b3 : Nat) : Int :=
  let u : Nat := b0 * 2 ^ 24 + b1 * 2 ^ 16 + b2 * 2 ^ 8 + b3
  if u ≥ 2 ^ 31 then (u : Int) - 2 ^ 32 else (u : Int)

/-- Whether a byte is a UTF-8 continuation byte (`0x80 ..= 0xBF`). -/
def isUtf8Cont (b : Nat) : Bool :=
  0x80 ≤ b && b ≤ 0xBF

/-- UTF-8 validity of a byte sequence, as checked by Rust's
`String::from_utf8` (rejecting overlong encodings and surrogates). -/
def validUtf8 : List Nat → Bool
  | [] => true
  | b :: rest =>
    if b < 0x80 then validUtf8 rest
    else if 0xC2 ≤ b && b ≤ 0xDF then
      match rest with
      | c1 :: r => isUtf8Cont c1 && validUtf8 r
      | [] => false
    else if 0xE0 ≤ b && b ≤ 0xEF then
      match rest with
      | c1 :: c2 :: r =>
        (if b = 0xE0 then 0xA0 ≤ c1 && c1 ≤ 0xBF
         else if b = 0xED then 0x80 ≤ c1 && c1 ≤ 0x9F
         else isUtf8Cont c1) && isUtf8Cont c2 && validUtf8 r
      | _ => false
    else if 0xF0 ≤ b && b ≤ 0xF4 then
      match rest with
      | c1 :: c2 :: c3 :: r =>
        (if b = 0xF0 then 0x90 ≤ c1 && c1 ≤ 0xBF
         else if b = 0xF4 then 0x80 ≤ c1 && c1 ≤ 0x8F
         else isUtf8Cont c1) && isUtf8Cont c2 && isUtf8Cont c3 && validUtf8 r
      | _ => false
    else false

/-! ## Wire framer (`src/lan.rs`, `send_xml_on_stream` / `read_message_from_stream`)

A stream is a `List Nat` of bytes.  `send_xml_on_stream` returns the bytes it
writes; `read_message_from_stream` returns the decoded payload (`none` for the
negative-header disconnect signal) together with the unconsumed remainder of
the stream.  `read_exact` hitting end-of-stream, and an invalid-UTF-8 payload,
are the error cases. -/

def send_xml_on_stream (xml : List Nat) : Except String (List Nat) :=
  let count := xml.length
  if count > 2 ^ 31 - 1 then
    .error "payload too large for 4-byte header"
  else
    .ok (toBeBytes32 count ++ xml)

def read_message_from_stream (stream : List Nat) :
    Except String (Option (List Nat) × List Nat) :=
  match stream with
  | b0 :: b1 :: b2 :: b3 :: rest =>
    let signed_len := fromBeBytesI32 b0 b1 b2 b3
    if signed_len < 0 then
      .ok (none, rest)
    else
      let len := signed_len.toNat
      if len = 0 then
        .ok (some [], rest)
      else if rest.length < len then
        .error "failed to fill whole buffer"
      else if validUtf8 (rest.take len) then
        .ok (some (rest.take len), rest.drop len)
      else
        .error "invalid utf8 payload"
  | _ => .error "failed to fill whole buffer"

theorem fromBeBytesI32_toBeBytes32 (n : Nat) (h : n < 2 ^ 32) :
    fromBeBytesI32 (n / 2 ^ 24 % 256) (n / 2 ^ 16 % 256) (n / 2 ^ 8 % 256)
      (n % 256) = if n ≥ 2 ^ 31 then (n : Int) - 2 ^ 32 else (n : Int) := by
  have hu : n / 2 ^ 24 % 256 * 2 ^ 24 + n / 2 ^ 16 % 256 * 2 ^ 16 +
      n / 2 ^ 8 % 256 * 2 ^ 8 + n % 256 = n := by omega
  simp only [fromBeBytesI32, hu]

theorem send_frame_ok (p : List Nat) (h : p.length ≤ 2 ^ 31 - 1) :
    send_xml_on_stream p = .ok (toBeBytes32 p.length ++ p) := by
  simp only [send_xml_on_stream]
  rw [if_neg (by omega)]

theorem read_framed (p rest : List Nat) (h : p.length ≤ 2 ^ 31 - 1)
    (hv : validUtf8 p = true) :
    read_message_from_stream (toBeBytes32 p.length ++ p ++ rest) =
      .ok (some p, rest) := by
  have hfe := fromBeBytesI32_toBeBytes32 p.length (by omega)
  rw [if_neg (by omega)] at hfe
  simp only [toBeBytes32, List.cons_append, List.nil_append,
    read_message_from_stream, hfe, Int.toNat_natCast]
  rw [if_neg (by omega)]
  by_cases hp : p.length = 0
  · obtain rfl : p = [] := List.length_eq_zero.mp hp
    simp [hp]
  · rw [if_neg hp, if_neg (by simp only [List.length_append]; omega),
      List.take_left' rfl, List.drop_left' rfl, if_pos hv]

/-- C1: wire framing round-trips faithfully. For every payload within the
31-bit signed bound, `send_xml_on_stream` emits the 4-byte big-endian signed
length followed by the raw bytes, and `read_message_from_stream` on that
stream returns the original payload, consuming exactly the frame; the writer
fails with the payload-too-large error exactly when the length exceeds the
bound; a negative length header yields `none` consuming only the 4 header
bytes; a zero header yields the empty payload. -/
theorem frame_roundtrip_spec :
    (∀ p : List Nat, p.length ≤ 2 ^ 31 - 1 →
      send_xml_on_stream p = .ok (toBeBytes32 p.length ++ p)) ∧
    (∀ p rest : List Nat, p.length ≤ 2 ^ 31 - 1 → validUtf8 p = true →
      read_message_from_stream (toBeBytes32 p.length ++ p ++ rest) =
        .ok (some p, rest)) ∧
    (∀ p : List Nat, p.length > 2 ^ 31 - 1 →
      send_xml_on_stream p = .error "payload too large for 4-byte header") ∧
    (∀ b0 b1 b2 b3 : Nat, ∀ rest : List Nat, fromBeBytesI32 b0 b1 b2 b3 < 0 →
      read_message_from_stream (b0 :: b1 :: b2 :: b3 :: rest) =
        .ok (none, rest)) ∧
    (∀ rest : List Nat,
      read_message_from_stream (0 :: 0 :: 0 :: 0 :: rest) =
        .ok (some [], rest)) := by
  refine ⟨send_frame_ok, read_framed, ?_, ?_, ?_⟩
  · intro p hp
    simp only [send_xml_on_stream]
    rw [if_pos (by omega)]
  · intro b0 b1 b2 b3 rest hneg
    simp only [read_message_from_stream]
    rw [if_pos hneg]
  · intro rest
    have h0 : fromBeBytesI32 0 0 0 0 = 0 := by decide
    simp [read_message_from_stream, h0]

/-- Witness for C1 at a concrete 3-byte payload, a concrete negative header
and a concrete zero header. -/
theorem frame_roundtrip_spec_witness :
    send_xml_on_stream [60, 97, 62] = .ok [0, 0, 0, 3, 60, 97, 62] ∧
    read_message_from_stream [0, 0, 0, 3, 60, 97, 62, 7] =
      .ok (some [60, 97, 62], [7]) ∧
    read_message_from_stream [255, 255, 255, 255, 9] = .ok (none, [9]) ∧
    read_message_from_stream [0, 0, 0, 0, 9] = .ok (some [], [9]) := by
  refine ⟨?_, ?_, ?_, ?_⟩
  · simpa using frame_roundtrip_spec.1 [60, 97, 62] (by decide)
  · simpa using
      frame_roundtrip_spec.2.1 [60, 97, 62] [7] (by decide) (by decide)
  · exact frame_roundtrip_spec.2.2.2.1 255 255 255 255 [9] (by decide)
  · exact frame_roundtrip_spec.2.2.2.2 [9]

/-! ## Text-to-number parsing (Rust `str::parse`, `str::trim`) -/

/-- A character of Unicode's White_Space class, as trimmed by Rust's
`str::trim`. -/
def isRustWhitespace (c : Char) : Bool :=
  c.toNat = 0x09 || c.toNat = 0x0A || c.toNat = 0x0B || c.toNat = 0x0C ||
  c.toNat = 0x0D || c.toNat = 0x20 || c.toNat = 0x85 || c.toNat = 0xA0 ||
  c.toNat = 0x1680 || (0x2000 ≤ c.toNat && c.toNat ≤ 0x200A) ||
  c.toNat = 0x2028 || c.toNat = 0x2029 || c.toNat = 0x202F ||
  c.toNat = 0x205F || c.toNat = 0x3000

/-- Rust's `str::trim`: strip leading and trailing White_Space characters. -/
def rustTrim (s : String) : String :=
  ⟨((s.data.dropWhile isRustWhitespace).reverse.dropWhile
      isRustWhitespace).reverse⟩

/-- Value of a list of decimal digit characters. -/
def digitsToNat (ds : List Char) : Nat :=
  ds.foldl (fun a c => 10 * a + (c.toNat - 48)) 0

/-- Rust's `str::parse::<u8>()`: optional `+` sign, one or more decimal
digits, value within `0 ..= 255`; anything else is a parse error (`none`). -/
def parseU8 (s : String) : Option Nat :=
  let cs : List Char :=
    match s.data with
    | '+' :: r => r
    | cs => cs
  if cs.isEmpty then none
  else if cs.all Char.isDigit then
    if digitsToNat cs ≤ 255 then some (digitsToNat cs) else none
  else none

/-- The value space of Rust floats as stored (never computed with) by the
parser: an exact rational, or an infinity, or NaN.  Exact rationals abstract
the binary rounding of `f32`/`f64`, which is observationally silent here
because the parser only stores the parsed values. -/
inductive FVal where
  | num (q : ℚ)
  | inf (neg : Bool)
  | nan
deriving Repr, DecidableEq

/-- Rust's `str::parse::<f64>()` (and `::<f32>()`) textual grammar:
`Sign? (inf | infinity | nan | Digits .? Digits? Exp? | . Digits Exp?)`,
with `Exp ::= (e|E) Sign? Digits`, keywords ASCII-case-insensitive. -/
def parseFVal (s : String) : Option FVal :=
  let signAndRest : Bool × List Char :=
    match s.data with
    | '+' :: r => (false, r)
    | '-' :: r => (true, r)
    | cs => (false, cs)
  let neg := signAndRest.1
  let cs1 := signAndRest.2
  let lower := cs1.map Char.toLower
  if lower = ['i', 'n', 'f'] ||
      lower = ['i', 'n', 'f', 'i', 'n', 'i', 't', 'y'] then
    some (.inf neg)
  else if lower = ['n', 'a', 'n'] then
    some .nan
  else
    let ipSplit := cs1.span Char.isDigit
    let ip := ipSplit.1
    let fpSplit : List Char × List Char :=
      match ipSplit.2 with
      | '.' :: r => r.span Char.isDigit
      | cs2 => ([], cs2)
    let fp := fpSplit.1
    let cs3 := if ipSplit.2.head? = some '.' then fpSplit.2 else ipSplit.2
    if ip.isEmpty && fp.isEmpty then none
    else
      let sgn : Int := if neg then -1 else 1
      let mantNum : Int :=
        sgn * ((digitsToNat ip : Int) * 10 ^ fp.length + (digitsToNat fp : Int))
      match cs3 with
      | [] => some (.num (mkRat mantNum (10 ^ fp.length)))
      | e :: r =>
        if e = 'e' || e = 'E' then
          let esignAndRest : Bool × List Char :=
            match r with
            | '+' :: rr => (false, rr)
            | '-' :: rr => (true, rr)
            | rr => (false, rr)
          let eds := esignAndRest.2.span Char.isDigit
          if eds.1.isEmpty || !eds.2.isEmpty then none
          else if esignAndRest.1 then
            some (.num (mkRat mantNum (10 ^ (fp.length + digitsToNat eds.1))))
          else
            some (.num (mkRat (mantNum * 10 ^ digitsToNat eds.1)
              (10 ^ fp.length)))
        else none

/-! ## Data model (`src/lan.rs`) -/

/-- `ColorRGB` of `src/lan.rs`: three `u8` channels (no bit-depth field
exists on this struct). -/
structure ColorRGB where
  red : Nat
  green : Nat
  blue : Nat
deriving Repr, DecidableEq

/-- `ColorRGB::default()`: all channels zero. -/
def ColorRGB.zero : ColorRGB := ⟨0, 0, 0⟩

structure RectangleGeometry where
  width : FVal
  height : FVal
deriving Repr, DecidableEq

structure RectangleShape where
  color : ColorRGB
  geometry : RectangleGeometry
deriving Repr, DecidableEq

inductive ShapeInstruction where
  | Rectangle (r : RectangleShape)
deriving Repr, DecidableEq

structure MeasurementResult where
  red : Nat
  green : Nat
  blue : Nat
  x : Option FVal
  y : Option FVal
  y_lum : Option FVal
  shapes : List ShapeInstruction
deriving Repr, DecidableEq

/-! ## Measurement parser (`parse_measurement_from_xml`)

The Rust function drives a `quick_xml` streaming reader; the embedding
consumes the reader's event sequence directly.  End of the event list plays
the role of `Event::Eof`; a `panic!` is modelled as a `ParseError`. -/

inductive XmlEvent where
  | Start (name : String) (attrs : List (String × String))
  | End (name : String)
  | Empty (name : String) (attrs : List (String × String))
  | Text (txt : String)
deriving Repr, DecidableEq

inductive ParseError where
  | duplicateCommand (c : String)
  | incompleteShape
deriving Repr, DecidableEq

/-- The `RectangleBuilder` local struct of `parse_measurement_from_xml`. -/
structure RectangleBuilder where
  color : Option ColorRGB := none
  width : Option FVal := none
  height : Option FVal := none
deriving Repr, DecidableEq

/-- `RectangleBuilder::build`: no colour ever observed means no rectangle;
width and height default to `1.0` when never set. -/
def RectangleBuilder.build (b : RectangleBuilder) : Option RectangleShape :=
  match b.color with
  | none => none
  | some c =>
    some ⟨c, ⟨b.width.getD (.num 1), b.height.getD (.num 1)⟩⟩

/-- One attribute step of the `apply_color` closure. -/
def applyColorAttr (acc : ColorRGB × Bool) (kv : String × String) :
    ColorRGB × Bool :=
  if kv.1 = "red" then
    match parseU8 kv.2 with
    | some v => ({ acc.1 with red := v }, true)
    | none => acc
  else if kv.1 = "green" then
    match parseU8 kv.2 with
    | some v => ({ acc.1 with green := v }, true)
    | none => acc
  else if kv.1 = "blue" then
    match parseU8 kv.2 with
    | some v => ({ acc.1 with blue := v }, true)
    | none => acc
  else acc

/-- The `apply_color` closure: fold the element's attributes over the
builder's colour (starting from `ColorRGB::default()` when absent), marking
it touched when any channel attribute parses as `u8`. -/
def apply_color (b : RectangleBuilder) (attrs : List (String × String)) :
    RectangleBuilder :=
  let folded := attrs.foldl applyColorAttr (b.color.getD ColorRGB.zero, false)
  if folded.2 then { b with color := some folded.1 } else b

/-- One attribute step of the `apply_geometry` closure: `cx`/`cy` always set
width/height; `x`/`y` set them only when still unset. -/
def applyGeometryAttr (b : RectangleBuilder) (kv : String × String) :
    RectangleBuilder :=
  if kv.1 = "cx" then
    match parseFVal kv.2 with
    | some v => { b with width := some v }
    | none => b
  else if kv.1 = "cy" then
    match parseFVal kv.2 with
    | some v => { b with height := some v }
    | none => b
  else if kv.1 = "x" then
    if b.width.isNone then
      match parseFVal kv.2 with
      | some v => { b with width := some v }
      | none => b
    else b
  else if kv.1 = "y" then
    if b.height.isNone then
      match parseFVal kv.2 with
      | some v => { b with height := some v }
      | none => b
    else b
  else b

def apply_geometry (b : RectangleBuilder) (attrs : List (String × String)) :
    RectangleBuilder :=
  attrs.foldl applyGeometryAttr b

/-- The mutable local state of `parse_measurement_from_xml`'s event loop. -/
structure PState where
  in_result : Bool
  cur_elem : String
  res : MeasurementResult
  element_stack : List String
  reported_commands : List String
  parsed_shapes : List ShapeInstruction
  rect_builder : Option RectangleBuilder
deriving Repr, DecidableEq

/-- The rectangle-builder update of a `Start`/`Empty` event carrying a
`color` or `geometry` element (no-ops without an open builder). -/
def builderUpdate (rb : Option RectangleBuilder) (name : String)
    (attrs : List (String × String)) : Option RectangleBuilder :=
  if name = "rectangle" then some {}
  else if name = "color" then
    match rb with
    | some b => some (apply_color b attrs)
    | none => rb
  else if name = "geometry" then
    match rb with
    | some b => some (apply_geometry b attrs)
    | none => rb
  else rb

/-- The `MeasurementResult` scalar update performed by a `Text` event
(`parse_measurement_from_xml`, `Event::Text` arm). -/
def textUpdate (st : PState) (t : String) : MeasurementResult :=
  let s := rustTrim t
  if s.isEmpty then st.res
  else if !st.in_result then st.res
  else if st.cur_elem = "red" then
    match parseU8 s with
    | some v => { st.res with red := v }
    | none => st.res
  else if st.cur_elem = "green" then
    match parseU8 s with
    | some v => { st.res with green := v }
    | none => st.res
  else if st.cur_elem = "blue" then
    match parseU8 s with
    | some v => { st.res with blue := v }
    | none => st.res
  else if st.cur_elem = "x" then
    match parseFVal s with
    | some v => { st.res with x := some v }
    | none => st.res
  else if st.cur_elem = "y" then
    match parseFVal s with
    | some v => { st.res with y := some v }
    | none => st.res
  else if st.cur_elem = "Y" then
    match parseFVal s with
    | some v => { st.res with y_lum := some v }
    | none => st.res
  else st.res

/-- One iteration of the event loop of `parse_measurement_from_xml`.
Each arm updates exactly the state fields the corresponding Rust arm
mutates; `Empty` (a self-closing tag) touches neither the element stack nor
`cur_elem` nor the duplicate-command set, exactly as in the source. -/
def parseStep (st : PState) (ev : XmlEvent) : Except ParseError PState :=
  match ev with
  | .Start name attrs =>
    let stack1 := st.element_stack ++ [name]
    if stack1.length = 2 && st.reported_commands.contains name then
      .error (.duplicateCommand name)
    else
      .ok { st with
            element_stack := stack1
            reported_commands :=
              if stack1.length = 2 then name :: st.reported_commands
              else st.reported_commands
            cur_elem := name
            in_result := if name = "result" then true else st.in_result
            rect_builder := builderUpdate st.rect_builder name attrs }
  | .End name =>
    if name = "rectangle" then
      match st.rect_builder with
      | some b =>
        match b.build with
        | some rect =>
          .ok { st with
                in_result := if name = "result" then false else st.in_result
                rect_builder := none
                parsed_shapes := st.parsed_shapes ++ [.Rectangle rect]
                element_stack := st.element_stack.dropLast }
        | none => .error .incompleteShape
      | none =>
        .ok { st with
              in_result := if name = "result" then false else st.in_result
              element_stack := st.element_stack.dropLast }
    else
      .ok { st with
            in_result := if name = "result" then false else st.in_result
            element_stack := st.element_stack.dropLast }
  | .Empty name attrs =>
    .ok { st with
          rect_builder :=
            if name = "rectangle" then st.rect_builder
            else builderUpdate st.rect_builder name attrs }
  | .Text t =>
    .ok { st with res := textUpdate st t }

/-- Run the event loop over the whole event sequence. -/
def foldSteps (st : PState) : List XmlEvent → Except ParseError PState
  | [] => .ok st
  | ev :: rest =>
    match parseStep st ev with
    | .ok st1 => foldSteps st1 rest
    | .error e => .error e

/-- End-of-document handling of `parse_measurement_from_xml`: a still-open
rectangle builder is finalized (or fails) exactly as on a closing tag, and
the collected shapes land in the result. -/
def parseFinish (st : PState) : Except ParseError MeasurementResult :=
  match st.rect_builder with
  | some b =>
    match b.build with
    | some rect =>
      .ok { st.res with shapes := st.parsed_shapes ++ [.Rectangle rect] }
    | none => .error .incompleteShape
  | none => .ok { st.res with shapes := st.parsed_shapes }

/-- Initial parser state: the `r, g, b` request components are the fallback
scalar values of the result. -/
def initState (r g b : Nat) : PState :=
  { in_result := false
    cur_elem := ""
    res := { red := r, green := g, blue := b, x := none, y := none,
             y_lum := none, shapes := [] }
    element_stack := []
    reported_commands := []
    parsed_shapes := []
    rect_builder := none }

/-- `parse_measurement_from_xml`, embedded over the XML event sequence. -/
def parse_measurement_events (evs : List XmlEvent) (r g b : Nat) :
    Except ParseError MeasurementResult :=
  match foldSteps (initState r g b) evs with
  | .ok st => parseFinish st
  | .error e => .error e

/-! ## General lemmas about the event loop -/

theorem foldSteps_append (st : PState) (a b : List XmlEvent) :
    foldSteps st (a ++ b) =
      match foldSteps st a with
      | .ok s => foldSteps s b
      | .error e => .error e := by
  induction a generalizing st with
  | nil => rfl
  | cons ev rest ih =>
    simp only [List.cons_append, foldSteps]
    cases parseStep st ev with
    | ok s1 => exact ih s1
    | error e => rfl

/-- Element-stack depth after a list of events, replayed from depth `n`
(`Start` pushes, `End` pops with saturation at zero, other events leave the
stack alone). -/
def replayDepth (n : Nat) : List XmlEvent → Nat
  | [] => n
  | .Start _ _ :: rest => replayDepth (n + 1) rest
  | .End _ :: rest => replayDepth (n - 1) rest
  | .Empty _ _ :: rest => replayDepth n rest
  | .Text _ :: rest => replayDepth n rest

theorem replayDepth_append (n : Nat) (a b : List XmlEvent) :
    replayDepth n (a ++ b) = replayDepth (replayDepth n a) b := by
  induction a generalizing n with
  | nil => rfl
  | cons ev rest ih =>
    cases ev <;> simp only [List.cons_append, replayDepth] <;> exact ih _

theorem parseStep_stack_length (st : PState) (ev : XmlEvent) (st' : PState)
    (h : parseStep st ev = .ok st') :
    st'.element_stack.length = replayDepth st.element_stack.length [ev] := by
  cases ev with
  | Start name attrs =>
    simp only [parseStep] at h
    split at h
    · exact Except.noConfusion h
    · injection h with h
      subst h
      simp [replayDepth]
  | End name =>
    simp only [parseStep] at h
    split at h
    · split at h
      · split at h
        · injection h with h
          subst h
          simp [replayDepth, List.length_dropLast]
        · exact Except.noConfusion h
      · injection h with h
        subst h
        simp [replayDepth, List.length_dropLast]
    · injection h with h
      subst h
      simp [replayDepth, List.length_dropLast]
  | Empty name attrs =>
    injection h with h
    subst h
    simp [replayDepth]
  | Text t =>
    injection h with h
    subst h
    simp [replayDepth]

theorem foldSteps_stack_length (evs : List XmlEvent) (st st' : PState)
    (h : foldSteps st evs = .ok st') :
    st'.element_stack.length = replayDepth st.element_stack.length evs := by
  induction evs generalizing st with
  | nil =>
    injection h with h
    subst h
    rfl
  | cons ev rest ih =>
    simp only [foldSteps] at h
    cases hp : parseStep st ev with
    | error e => rw [hp] at h; exact Except.noConfusion h
    | ok s1 =>
      rw [hp] at h
      have hone := parseStep_stack_length st ev s1 hp
      have : (ev :: rest : List XmlEvent) = [ev] ++ rest := rfl
      rw [this, replayDepth_append, ← hone]
      exact ih s1 h

theorem parseStep_reported_mono (st : PState) (ev : XmlEvent) (st' : PState)
    (h : parseStep st ev = .ok st') (c : String)
    (hc : c ∈ st.reported_commands) : c ∈ st'.reported_commands := by
  cases ev with
  | Start name attrs =>
    simp only [parseStep] at h
    split at h
    · exact Except.noConfusion h
    · injection h with h
      subst h
      simp only
      split
      · exact List.mem_cons_of_mem _ hc
      · exact hc
  | End name =>
    simp only [parseStep] at h
    split at h
    · split at h
      · split at h
        · injection h with h; subst h; exact hc
        · exact Except.noConfusion h
      · injection h with h; subst h; exact hc
    · injection h with h; subst h; exact hc
  | Empty name attrs => injection h with h; subst h; exact hc
  | Text t => injection h with h; subst h; exact hc

theorem foldSteps_reported_mono (evs : List XmlEvent) (st st' : PState)
    (h : foldSteps st evs = .ok st') (c : String)
    (hc : c ∈ st.reported_commands) : c ∈ st'.reported_commands := by
  induction evs generalizing st with
  | nil => injection h with h; subst h; exact hc
  | cons ev rest ih =>
    simp only [foldSteps] at h
    cases hp : parseStep st ev with
    | error e => rw [hp] at h; exact Except.noConfusion h
    | ok s1 =>
      rw [hp] at h
      exact ih s1 h (parseStep_reported_mono st ev s1 hp c hc)

theorem parseStep_start_records (st : PState) (name : String)
    (attrs : List (String × String)) (st' : PState)
    (h : parseStep st (.Start name attrs) = .ok st')
    (hlen : st.element_stack.length = 1) : name ∈ st'.reported_commands := by
  simp only [parseStep] at h
  split at h
  · exact Except.noConfusion h
  · injection h with h
    subst h
    simp only
    rw [if_pos (by simp [List.length_append, hlen])]
    exact List.mem_cons_self _ _

theorem parseStep_dup_error (st : PState) (name : String)
    (attrs : List (String × String)) (hlen : st.element_stack.length = 1)
    (hmem : name ∈ st.reported_commands) :
    parseStep st (.Start name attrs) = .error (.duplicateCommand name) := by
  simp only [parseStep]
  rw [if_pos (by simp [List.length_append, hlen, hmem])]

/-- C2: a command name repeated as a stack-depth-2 element aborts parsing
with a protocol violation.  Part 1: the event loop step itself fails with
`duplicateCommand` on a `Start` of an already-reported command at depth 2.
Part 2: any event sequence whose two `Start c` events both open at depth 2
(the syntactic depth before each is 1) cannot parse successfully.  Part 3:
the spec's canonical duplicated `<measurement>` message fails with exactly
the duplicate-command violation, not by taking the last value. -/
theorem duplicate_command_aborts :
    (∀ st : PState, ∀ name : String, ∀ attrs : List (String × String),
      st.element_stack.length = 1 → name ∈ st.reported_commands →
      parseStep st (.Start name attrs) = .error (.duplicateCommand name)) ∧
    (∀ l1 l2 l3 : List XmlEvent, ∀ c : String,
      ∀ a1 a2 : List (String × String), ∀ r g b : Nat,
      replayDepth 0 l1 = 1 →
      replayDepth 0 (l1 ++ .Start c a1 :: l2) = 1 →
      ∀ m, parse_measurement_events
        (l1 ++ .Start c a1 :: (l2 ++ .Start c a2 :: l3)) r g b ≠ .ok m) ∧
    (parse_measurement_events
      [.Start "CS_RMC" [("version", "1")], .Start "measurement" [],
       .End "measurement", .Start "measurement" [], .End "measurement",
       .End "CS_RMC"] 0 0 0 = .error (.duplicateCommand "measurement")) := by
  refine ⟨parseStep_dup_error, ?_, by rfl⟩
  intro l1 l2 l3 c a1 a2 r g b h1 h2 m hok
  rw [replayDepth_append, h1] at h2
  simp only [replayDepth] at h2
  simp only [parse_measurement_events] at hok
  cases hf : foldSteps (initState r g b)
      (l1 ++ .Start c a1 :: (l2 ++ .Start c a2 :: l3)) with
  | error e => rw [hf] at hok; exact Except.noConfusion hok
  | ok stF =>
    rw [foldSteps_append] at hf
    cases hf1 : foldSteps (initState r g b) l1 with
    | error e => rw [hf1] at hf; exact Except.noConfusion hf
    | ok s1 =>
      rw [hf1] at hf
      have hs1len : s1.element_stack.length = 1 := by
        have hA := foldSteps_stack_length l1 _ _ hf1
        simpa [initState, h1] using hA
      simp only [foldSteps] at hf
      cases hp1 : parseStep s1 (.Start c a1) with
      | error e => rw [hp1] at hf; exact Except.noConfusion hf
      | ok s2 =>
        rw [hp1] at hf
        dsimp only at hf
        have hrec : c ∈ s2.reported_commands :=
          parseStep_start_records s1 c a1 s2 hp1 hs1len
        have hs2len : s2.element_stack.length = 2 := by
          have := parseStep_stack_length s1 _ s2 hp1
          simp only [replayDepth] at this
          omega
        rw [foldSteps_append] at hf
        cases hf2 : foldSteps s2 l2 with
        | error e => rw [hf2] at hf; exact Except.noConfusion hf
        | ok s3 =>
          rw [hf2] at hf
          dsimp only at hf
          have hmem3 : c ∈ s3.reported_commands :=
            foldSteps_reported_mono l2 s2 s3 hf2 c hrec
          have hs3len : s3.element_stack.length = 1 := by
            have hB := foldSteps_stack_length l2 _ _ hf2
            rw [hs2len] at hB
            rw [hB]
            exact h2
          simp only [foldSteps] at hf
          rw [parseStep_dup_error s3 c a2 hs3len hmem3] at hf
          exact Except.noConfusion hf

/-- Witness for C2: a concrete duplicate `Start` at depth 2 fails, and the
general no-successful-parse statement at the concrete duplicated message. -/
theorem duplicate_command_aborts_witness :
    parseStep
      { in_result := false, cur_elem := "measurement"
        res := { red := 0, green := 0, blue := 0, x := none, y := none,
                 y_lum := none, shapes := [] }
        element_stack := ["CS_RMC"]
        reported_commands := ["measurement"]
        parsed_shapes := []
        rect_builder := none }
      (.Start "measurement" []) = .error (.duplicateCommand "measurement") ∧
    parse_measurement_events
      [.Start "CS_RMC" [("version", "1")], .Start "measurement" [],
       .End "measurement", .Start "measurement" [], .End "measurement",
       .End "CS_RMC"] 0 0 0 ≠
      .ok { red := 0, green := 0, blue := 0, x := none, y := none,
            y_lum := none, shapes := [] } := by
  constructor
  · exact duplicate_command_aborts.1 _ "measurement" [] (by rfl)
      (List.mem_singleton.mpr rfl)
  · exact duplicate_command_aborts.2.1 [.Start "CS_RMC" [("version", "1")]]
      [.End "measurement"] [.End "measurement", .End "CS_RMC"] "measurement"
      [] [] 0 0 0 (by rfl) (by rfl) _

/-- C3: closing a `<rectangle>` (or reaching end of input with one still
open) finalizes the builder: no colour ever observed is a fatal
`incompleteShape` violation; otherwise the rectangle is appended in document
order with width and height defaulting to `1.0` when never set.  Stated for
the closing-tag step and the end-of-input finalizer in general, plus the
spec's concrete examples. -/
theorem rectangle_finalize_spec :
    (∀ st : PState, ∀ b : RectangleBuilder, st.rect_builder = some b →
      b.color = none →
      parseStep st (.End "rectangle") = .error .incompleteShape ∧
      parseFinish st = .error .incompleteShape) ∧
    (∀ st : PState, ∀ b : RectangleBuilder, ∀ c : ColorRGB,
      st.rect_builder = some b → b.color = some c →
      parseStep st (.End "rectangle") = .ok
        { st with
          rect_builder := none
          parsed_shapes := st.parsed_shapes ++
            [.Rectangle ⟨c, ⟨b.width.getD (.num 1), b.height.getD (.num 1)⟩⟩]
          element_stack := st.element_stack.dropLast } ∧
      parseFinish st = .ok
        { st.res with shapes := st.parsed_shapes ++
            [.Rectangle ⟨c, ⟨b.width.getD (.num 1),
              b.height.getD (.num 1)⟩⟩] }) ∧
    (parse_measurement_events
      [.Start "CS_RMC" [], .Start "cmd" [], .Start "rectangle" [],
       .Empty "geometry" [("cx", "0.5"), ("cy", "0.5")], .End "rectangle",
       .End "cmd", .End "CS_RMC"] 0 0 0 = .error .incompleteShape) ∧
    (parse_measurement_events
      [.Start "CS_RMC" [], .Start "cmd" [], .Start "rectangle" [],
       .Empty "color" [("red", "100"), ("green", "50"), ("blue", "25")],
       .End "rectangle", .End "cmd", .End "CS_RMC"] 0 0 0 =
      .ok { red := 0, green := 0, blue := 0, x := none, y := none,
            y_lum := none,
            shapes := [.Rectangle ⟨⟨100, 50, 25⟩, ⟨.num 1, .num 1⟩⟩] }) ∧
    (parse_measurement_events
      [.Start "CS_RMC" [], .Start "cmd" [], .Start "rectangle" []] 0 0 0 =
      .error .incompleteShape) := by
  refine ⟨?_, ?_, by rfl, by rfl, by rfl⟩
  · intro st b hb hc
    constructor
    · simp [parseStep, hb, RectangleBuilder.build, hc]
    · simp [parseFinish, hb, RectangleBuilder.build, hc]
  · intro st b c hb hc
    constructor
    · simp [parseStep, hb, RectangleBuilder.build, hc]
    · simp [parseFinish, hb, RectangleBuilder.build, hc]

/-- Witness for C3 at concrete builders: an open colourless builder fails
both finalization paths; a builder with colour `(1,2,3)` and width `0.5`
finalizes with the default height `1.0`. -/
theorem rectangle_finalize_spec_witness :
    (parseStep
      { in_result := false, cur_elem := "rectangle"
        res := { red := 0, green := 0, blue := 0, x := none, y := none,
                 y_lum := none, shapes := [] }
        element_stack := ["CS_RMC", "cmd", "rectangle"]
        reported_commands := ["cmd"]
        parsed_shapes := []
        rect_builder := some {} }
      (.End "rectangle") = .error .incompleteShape) ∧
    (parseFinish
      { in_result := false, cur_elem := "rectangle"
        res := { red := 0, green := 0, blue := 0, x := none, y := none,
                 y_lum := none, shapes := [] }
        element_stack := ["CS_RMC", "cmd", "rectangle"]
        reported_commands := ["cmd"]
        parsed_shapes := []
        rect_builder := some { color := some ⟨1, 2, 3⟩,
                               width := some (.num (1 / 2)) } } =
      .ok { red := 0, green := 0, blue := 0, x := none, y := none,
            y_lum := none,
            shapes := [.Rectangle ⟨⟨1, 2, 3⟩,
              ⟨.num (1 / 2), .num 1⟩⟩] }) := by
  constructor
  · exact (rectangle_finalize_spec.1 _ {} rfl rfl).1
  · exact (rectangle_finalize_spec.2.1 _
      { color := some ⟨1, 2, 3⟩, width := some (.num (1 / 2)) }
      ⟨1, 2, 3⟩ rfl rfl).2

/-! ## Geometry attribute priority (C4) -/

/-- Last successfully-parsed value of attribute `key` in document order. -/
def lastParsed (key : String) : List (String × String) → Option FVal
  | [] => none
  | kv :: rest =>
    match lastParsed key rest with
    | some v => some v
    | none => if kv.1 = key then parseFVal kv.2 else none

/-- First successfully-parsed value of attribute `key` in document order. -/
def firstParsed (key : String) : List (String × String) → Option FVal
  | [] => none
  | kv :: rest =>
    if kv.1 = key then
      match parseFVal kv.2 with
      | some v => some v
      | none => firstParsed key rest
    else firstParsed key rest

/-- Specification of one sizing dimension after `apply_geometry`: the last
parsed priority attribute (`cx`/`cy`) if any, else the value already set on
the builder, else the first parsed legacy attribute (`x`/`y`). -/
def sizingResult (initial : Option FVal) (priKey altKey : String)
    (attrs : List (String × String)) : Option FVal :=
  match lastParsed priKey attrs with
  | some v => some v
  | none =>
    match initial with
    | some w => some w
    | none => firstParsed altKey attrs

theorem apply_geometry_width (attrs : List (String × String))
    (b : RectangleBuilder) :
    (apply_geometry b attrs).width = sizingResult b.width "cx" "x" attrs := by
  induction attrs generalizing b with
  | nil =>
    simp only [apply_geometry, List.foldl_nil, sizingResult, lastParsed,
      firstParsed]
    cases b.width <;> rfl
  | cons kv rest ih =>
    obtain ⟨k, v⟩ := kv
    have hstep : apply_geometry b ((k, v) :: rest) =
        apply_geometry (applyGeometryAttr b (k, v)) rest := rfl
    rw [hstep, ih]
    by_cases hcx : k = "cx"
    · subst hcx
      cases hpar : parseFVal v <;> cases hl : lastParsed "cx" rest <;>
        simp [applyGeometryAttr, sizingResult, lastParsed, firstParsed,
          hpar, hl]
    · by_cases hcy : k = "cy"
      · subst hcy
        cases hpar : parseFVal v <;> cases hl : lastParsed "cx" rest <;>
          cases hw : b.width <;>
          simp [applyGeometryAttr, sizingResult, lastParsed, firstParsed,
            hpar, hl, hw]
      · by_cases hx : k = "x"
        · subst hx
          cases hpar : parseFVal v <;> cases hl : lastParsed "cx" rest <;>
            cases hw : b.width <;>
            simp [applyGeometryAttr, sizingResult, lastParsed, firstParsed,
              hpar, hl, hw]
        · by_cases hy : k = "y"
          · subst hy
            cases hpar : parseFVal v <;> cases hl : lastParsed "cx" rest <;>
              cases hw : b.width <;> cases hh : b.height <;>
              simp [applyGeometryAttr, sizingResult, lastParsed, firstParsed,
                hpar, hl, hw, hh]
          · cases hl : lastParsed "cx" rest <;> cases hw : b.width <;>
              simp [applyGeometryAttr, sizingResult, lastParsed, firstParsed,
                hcx, hcy, hx, hy, hl, hw]

theorem apply_geometry_height (attrs : List (String × String))
    (b : RectangleBuilder) :
    (apply_geometry b attrs).height = sizingResult b.height "cy" "y" attrs := by
  induction attrs generalizing b with
  | nil =>
    simp only [apply_geometry, List.foldl_nil, sizingResult, lastParsed,
      firstParsed]
    cases b.height <;> rfl
  | cons kv rest ih =>
    obtain ⟨k, v⟩ := kv
    have hstep : apply_geometry b ((k, v) :: rest) =
        apply_geometry (applyGeometryAttr b (k, v)) rest := rfl
    rw [hstep, ih]
    by_cases hcy : k = "cy"
    · subst hcy
      cases hpar : parseFVal v <;> cases hl : lastParsed "cy" rest <;>
        simp [applyGeometryAttr, sizingResult, lastParsed, firstParsed,
          hpar, hl]
    · by_cases hcx : k = "cx"
      · subst hcx
        cases hpar : parseFVal v <;> cases hl : lastParsed "cy" rest <;>
          cases hh : b.height <;>
          simp [applyGeometryAttr, sizingResult, lastParsed, firstParsed,
            hpar, hl, hh]
      · by_cases hy : k = "y"
        · subst hy
          cases hpar : parseFVal v <;> cases hl : lastParsed "cy" rest <;>
            cases hh : b.height <;>
            simp [applyGeometryAttr, sizingResult, lastParsed, firstParsed,
              hpar, hl, hh]
        · by_cases hx : k = "x"
          · subst hx
            cases hpar : parseFVal v <;> cases hl : lastParsed "cy" rest <;>
              cases hw : b.width <;> cases hh : b.height <;>
              simp [applyGeometryAttr, sizingResult, lastParsed, firstParsed,
                hpar, hl, hw, hh]
          · cases hl : lastParsed "cy" rest <;> cases hh : b.height <;>
              simp [applyGeometryAttr, sizingResult, lastParsed, firstParsed,
                hcx, hcy, hx, hy, hl, hh]

/-- C4: in `apply_geometry`, `cx`/`cy` always set width/height while `x`/`y`
set them only when not already set, so `cx`/`cy` take priority over `x`/`y`
regardless of attribute order: each dimension ends as the last parsed
priority attribute if any, else the previously set value, else the first
parsed legacy attribute; in particular `x="0.2" cx="0.9"` (either order)
yields width `0.9`. -/
theorem geometry_priority_spec :
    (∀ b : RectangleBuilder, ∀ attrs : List (String × String),
      (apply_geometry b attrs).width = sizingResult b.width "cx" "x" attrs ∧
      (apply_geometry b attrs).height =
        sizingResult b.height "cy" "y" attrs) ∧
    (apply_geometry {} [("x", "0.2"), ("cx", "0.9")]).width =
      some (.num (mkRat 9 10)) ∧
    (apply_geometry {} [("cx", "0.9"), ("x", "0.2")]).width =
      some (.num (mkRat 9 10)) :=
  ⟨fun b attrs => ⟨apply_geometry_width attrs b, apply_geometry_height attrs b⟩,
    by decide, by decide⟩

/-! ## Result scalar updates (C5) -/

/-- Whether one event actually updates one of the scalar `red`/`green`/`blue`
fields: a non-blank `Text` whose trimmed content parses as `u8`, seen while
inside `<result>` with `cur_elem` one of the three channel names — i.e. a
numeric `<result>` channel child. -/
def stepUpdatesRGB (st : PState) (ev : XmlEvent) : Bool :=
  match ev with
  | .Text t =>
    let s := rustTrim t
    !s.isEmpty && st.in_result &&
      ((st.cur_elem = "red" || st.cur_elem = "green" ||
        st.cur_elem = "blue") && (parseU8 s).isSome)
  | _ => false

/-- Whether an event sequence, replayed from `st`, contains a numeric
`<result>` channel child (an event that fires `stepUpdatesRGB`). -/
def hasResultRGBText : PState → List XmlEvent → Bool
  | _, [] => false
  | st, ev :: rest =>
    stepUpdatesRGB st ev ||
      match parseStep st ev with
      | .ok st1 => hasResultRGBText st1 rest
      | .error _ => false

theorem parseStep_res_outside_result (st : PState) (ev : XmlEvent)
    (st' : PState) (h : parseStep st ev = .ok st')
    (hr : st.in_result = false) : st'.res = st.res := by
  cases ev with
  | Start name attrs =>
    simp only [parseStep] at h
    split at h
    · exact Except.noConfusion h
    · injection h with h; subst h; rfl
  | End name =>
    simp only [parseStep] at h
    split at h
    · split at h
      · split at h
        · injection h with h; subst h; rfl
        · exact Except.noConfusion h
      · injection h with h; subst h; rfl
    · injection h with h; subst h; rfl
  | Empty name attrs =>
    injection h with h; subst h; rfl
  | Text t =>
    injection h with h; subst h
    simp only [textUpdate, hr]
    split <;> simp

theorem parseStep_rgb_unchanged (st : PState) (ev : XmlEvent) (st' : PState)
    (h : parseStep st ev = .ok st') (hf : stepUpdatesRGB st ev = false) :
    st'.res.red = st.res.red ∧ st'.res.green = st.res.green ∧
      st'.res.blue = st.res.blue := by
  cases ev with
  | Start name attrs =>
    simp only [parseStep] at h
    split at h
    · exact Except.noConfusion h
    · injection h with h; subst h; exact ⟨rfl, rfl, rfl⟩
  | End name =>
    simp only [parseStep] at h
    split at h
    · split at h
      · split at h
        · injection h with h; subst h; exact ⟨rfl, rfl, rfl⟩
        · exact Except.noConfusion h
      · injection h with h; subst h; exact ⟨rfl, rfl, rfl⟩
    · injection h with h; subst h; exact ⟨rfl, rfl, rfl⟩
  | Empty name attrs =>
    injection h with h; subst h; exact ⟨rfl, rfl, rfl⟩
  | Text t =>
    injection h with h; subst h
    simp only [stepUpdatesRGB] at hf
    simp only [textUpdate]
    split
    · exact ⟨rfl, rfl, rfl⟩
    · split
      · exact ⟨rfl, rfl, rfl⟩
      · split
        · split
          · simp_all
          · exact ⟨rfl, rfl, rfl⟩
        · split
          · split
            · simp_all
            · exact ⟨rfl, rfl, rfl⟩
          · split
            · split
              · simp_all
              · exact ⟨rfl, rfl, rfl⟩
            · split
              · split <;> exact ⟨rfl, rfl, rfl⟩
              · split
                · split <;> exact ⟨rfl, rfl, rfl⟩
                · split
                  · split <;> exact ⟨rfl, rfl, rfl⟩
                  · exact ⟨rfl, rfl, rfl⟩

theorem foldSteps_rgb_unchanged (evs : List XmlEvent) (st st' : PState)
    (h : foldSteps st evs = .ok st')
    (hf : hasResultRGBText st evs = false) :
    st'.res.red = st.res.red ∧ st'.res.green = st.res.green ∧
      st'.res.blue = st.res.blue := by
  induction evs generalizing st with
  | nil => injection h with h; subst h; exact ⟨rfl, rfl, rfl⟩
  | cons ev rest ih =>
    simp only [foldSteps] at h
    cases hp : parseStep st ev with
    | error e => rw [hp] at h; exact Except.noConfusion h
    | ok s1 =>
      rw [hp] at h
      simp only [hasResultRGBText, hp, Bool.or_eq_false_iff] at hf
      obtain ⟨hf1, hf2⟩ := hf
      obtain ⟨e1, e2, e3⟩ := parseStep_rgb_unchanged st ev s1 hp hf1
      obtain ⟨f1, f2, f3⟩ := ih s1 h hf2
      exact ⟨f1.trans e1, f2.trans e2, f3.trans e3⟩

/-- C5: the result scalars are updated only inside `<result>`.  Part 1: any
successful step taken outside `<result>` context leaves the whole
`MeasurementResult` unchanged.  Part 2: a `Text` event never fails, and its
entire effect is the scalar update `textUpdate`.  Part 3: text that parses
neither as `u8` nor as a float leaves the result unchanged (parse failures
are absorbed).  Part 4: a message with no numeric `<result>` channel child
returns exactly the caller-supplied fallback `r`, `g`, `b`. -/
theorem result_scalar_spec :
    (∀ st : PState, ∀ ev : XmlEvent, ∀ st' : PState,
      parseStep st ev = .ok st' → st.in_result = false →
      st'.res = st.res) ∧
    (∀ st : PState, ∀ t : String,
      parseStep st (.Text t) = .ok { st with res := textUpdate st t }) ∧
    (∀ st : PState, ∀ t : String, ∀ st' : PState,
      parseStep st (.Text t) = .ok st' →
      parseU8 (rustTrim t) = none → parseFVal (rustTrim t) = none →
      st'.res = st.res) ∧
    (∀ evs : List XmlEvent, ∀ r g b : Nat, ∀ m : MeasurementResult,
      hasResultRGBText (initState r g b) evs = false →
      parse_measurement_events evs r g b = .ok m →
      m.red = r ∧ m.green = g ∧ m.blue = b) := by
  refine ⟨parseStep_res_outside_result, fun st t => rfl, ?_, ?_⟩
  · intro st t st' h hu hv
    injection h with h; subst h
    simp only [textUpdate]
    split
    · rfl
    · split
      · rfl
      · split
        · simp [hu]
        · split
          · simp [hu]
          · split
            · simp [hu]
            · split
              · simp [hv]
              · split
                · simp [hv]
                · split
                  · simp [hv]
                  · rfl
  · intro evs r g b m hcond hok
    simp only [parse_measurement_events] at hok
    cases hfold : foldSteps (initState r g b) evs with
    | error e => rw [hfold] at hok; exact Except.noConfusion hok
    | ok stF =>
      rw [hfold] at hok
      have hrgb := foldSteps_rgb_unchanged evs _ _ hfold hcond
      simp only [initState] at hrgb
      simp only [parseFinish] at hok
      split at hok
      · split at hok
        · injection hok with hok
          subst hok
          exact hrgb
        · exact Except.noConfusion hok
      · injection hok with hok
        subst hok
        exact hrgb

/-- Witness for C5 at a concrete message whose `<result>` carries an `x`
reading and a non-numeric `red` child: the returned scalars echo the request
`(10, 20, 30)`. -/
theorem result_scalar_spec_witness :
    hasResultRGBText (initState 10 20 30)
      [.Start "CS_RMC" [], .Start "measurement" [], .Start "result" [],
       .Start "x" [], .Text "0.31", .End "x", .Start "red" [],
       .Text "junk", .End "red", .End "result", .End "measurement",
       .End "CS_RMC"] = false ∧
    ({ red := 10, green := 20, blue := 30, x := some (.num (mkRat 31 100)),
       y := none, y_lum := none,
       shapes := [] } : MeasurementResult).red = 10 ∧
    parse_measurement_events
      [.Start "CS_RMC" [], .Start "measurement" [], .Start "result" [],
       .Start "x" [], .Text "0.31", .End "x", .Start "red" [],
       .Text "junk", .End "red", .End "result", .End "measurement",
       .End "CS_RMC"] 10 20 30 =
      .ok { red := 10, green := 20, blue := 30,
            x := some (.num (mkRat 31 100)), y := none, y_lum := none,
            shapes := [] } := by
  refine ⟨by decide, ?_, by rfl⟩
  exact (result_scalar_spec.2.2.2
    [.Start "CS_RMC" [], .Start "measurement" [], .Start "result" [],
     .Start "x" [], .Text "0.31", .End "x", .Start "red" [],
     .Text "junk", .End "red", .End "result", .End "measurement",
     .End "CS_RMC"] 10 20 30
    { red := 10, green := 20, blue := 30, x := some (.num (mkRat 31 100)),
      y := none, y_lum := none, shapes := [] }
    (by decide) (by rfl)).1

/-! ## Colour attribute extraction (C6) -/

/-- Whether some attribute of the element names a channel and parses as
`u8`. -/
def anyChannelParsed (attrs : List (String × String)) : Bool :=
  attrs.any fun kv =>
    (kv.1 = "red" || kv.1 = "green" || kv.1 = "blue") &&
      (parseU8 kv.2).isSome

theorem applyColorAttr_foldl_flag (attrs : List (String × String))
    (c : ColorRGB) (u : Bool) :
    (attrs.foldl applyColorAttr (c, u)).2 = (u || anyChannelParsed attrs) := by
  induction attrs generalizing c u with
  | nil => simp [anyChannelParsed]
  | cons kv rest ih =>
    obtain ⟨k, v⟩ := kv
    simp only [List.foldl_cons, anyChannelParsed, List.any_cons]
    by_cases hr : k = "red"
    · subst hr
      cases hp : parseU8 v <;>
        simp [applyColorAttr, hp, ih, anyChannelParsed, Bool.or_assoc]
    · by_cases hg : k = "green"
      · subst hg
        cases hp : parseU8 v <;>
          simp [applyColorAttr, hp, ih, anyChannelParsed, Bool.or_assoc]
      · by_cases hb : k = "blue"
        · subst hb
          cases hp : parseU8 v <;>
            simp [applyColorAttr, hp, ih, anyChannelParsed, Bool.or_assoc]
        · simp [applyColorAttr, hr, hg, hb, ih, anyChannelParsed]

/-- C6 counterexample: the claimed wide-integer parse (with 8-bit fallback)
of channel attributes does not happen — a `red="512"` attribute, which a
wide unsigned parse would accept, is rejected by the code's `u8`-only parse,
leaving the colour absent; and a `bits` attribute is ignored entirely
(`ColorRGB` has no depth-bits field to set). -/
theorem color_wide_parse_refuted :
    (apply_color {} [("red", "512")]).color = none ∧
    apply_color {} [("bits", "10"), ("red", "512")] =
      ({} : RectangleBuilder) := by
  exact ⟨by decide, by decide⟩

/-- C6 (amended): channel attributes `red`/`green`/`blue` are parsed as
`u8` only — any parse failure (including values over 255) leaves the
channel and the touched flag unchanged; `bits`/`depth`/`bitDepth` are not
read at all (the parsed `ColorRGB` has no depth-bits field); the colour is
present after `apply_color` exactly when it was already present or at least
one channel attribute parsed as `u8`; width and height are untouched. -/
theorem color_u8_parse_spec :
    (∀ b : RectangleBuilder, ∀ attrs : List (String × String),
      (apply_color b attrs).color.isSome =
        (b.color.isSome || anyChannelParsed attrs) ∧
      (apply_color b attrs).width = b.width ∧
      (apply_color b attrs).height = b.height) ∧
    apply_color {} [("red", "255"), ("bits", "10")] =
      { color := some { red := 255, green := 0, blue := 0 } } ∧
    (apply_color {} [("red", "256")]).color = none := by
  refine ⟨?_, by decide, by decide⟩
  intro b attrs
  have hflag := applyColorAttr_foldl_flag attrs (b.color.getD ColorRGB.zero)
    false
  simp only [apply_color]
  by_cases h : (attrs.foldl applyColorAttr
      (b.color.getD ColorRGB.zero, false)).2 = true
  · rw [if_pos h]
    rw [h] at hflag
    simp only [Bool.false_or] at hflag
    simp [← hflag]
  · rw [if_neg h]
    rw [Bool.not_eq_true] at h
    rw [h] at hflag
    simp only [Bool.false_or] at hflag
    simp [← hflag]

/-! ## Bit-depth canonicalization (`src/main.rs`, `color_to_u8_tuple`) -/

/-- The colour record `main.rs`'s `color_to_u8_tuple` is written against:
per its doc comment, wide (`u16`) channels plus a `depth_bits` field.  (The
`ColorRGB` actually exported by `lan.rs` carries neither; the helper is
embedded over this record so that its arithmetic can be stated.) -/
structure ColorRGBDepth where
  red : Nat
  green : Nat
  blue : Nat
  depth_bits : Nat
deriving Repr, DecidableEq

/-- One channel of `color_to_u8_tuple`: `bits` of 0 falls back to 8, the
input maximum is `2^bits - 1` capped at `0xFFFF`, defensively forced
nonzero, and the channel is scaled by `(v * 255 + max_in / 2) / max_in`
with the final `as u8` truncation. -/
def color_to_u8_component (value depth_bits : Nat) : Nat :=
  let bits := if depth_bits = 0 then 8 else depth_bits
  let max_in : Nat := if bits ≥ 16 then 0xFFFF else 2 ^ bits - 1
  let max_in := if max_in = 0 then 255 else max_in
  (value * 255 + max_in / 2) / max_in % 256

def color_to_u8_tuple (c : ColorRGBDepth) : Nat × Nat × Nat :=
  (color_to_u8_component c.red c.depth_bits,
   color_to_u8_component c.green c.depth_bits,
   color_to_u8_component c.blue c.depth_bits)

/-- Round `num / den` to the nearest integer (halves away from zero). -/
def roundNearest (num den : Nat) : Nat :=
  (2 * num + den) / (2 * den)

theorem div_add_half_eq_round (x m : Nat) (hm : m % 2 = 1) :
    (x + m / 2) / m = roundNearest x m := by
  have h2 : (2 * x + m) / 2 = x + m / 2 := by omega
  rw [roundNearest, ← Nat.div_div_eq_div_mul, h2]

/-- C7: for a channel value within the declared depth's range and
`depth_bits ≤ 16` (the data model allows 8/10/12/16, with 0 treated as 8),
`color_to_u8_component` computes `round(value * 255 / max_value)` with
`max_value = 2^depth_bits - 1`; in particular `{red = 512, depth_bits = 10}`
converts to `round(512 * 255 / 1023) = 128`. -/
theorem color_depth_round_spec :
    (∀ v d : Nat, d ≤ 16 → v ≤ 2 ^ (if d = 0 then 8 else d) - 1 →
      color_to_u8_component v d =
        roundNearest (v * 255) (2 ^ (if d = 0 then 8 else d) - 1)) ∧
    color_to_u8_tuple ⟨512, 0, 0, 10⟩ = (128, 0, 0) := by
  constructor
  · intro v d hd hv
    simp only [color_to_u8_component]
    set b := if d = 0 then 8 else d with hbdef
    have hb1 : 1 ≤ b := by rw [hbdef]; split <;> omega
    have hb16 : b ≤ 16 := by rw [hbdef]; split <;> omega
    have hpow : 2 ≤ 2 ^ b := by
      calc (2 : Nat) = 2 ^ 1 := rfl
        _ ≤ 2 ^ b := Nat.pow_le_pow_right (by norm_num) hb1
    have hdvd : 2 ∣ 2 ^ b := dvd_pow_self 2 (by omega)
    have hmodd : (2 ^ b - 1) % 2 = 1 := by omega
    have hmax : (if b ≥ 16 then 0xFFFF else 2 ^ b - 1) = 2 ^ b - 1 := by
      split
      · have hb : b = 16 := by omega
        rw [hb]; norm_num
      · rfl
    rw [hmax, if_neg (by omega)]
    have hvm : v * 255 ≤ (2 ^ b - 1) * 255 := Nat.mul_le_mul_right 255 hv
    have hlt : (v * 255 + (2 ^ b - 1) / 2) / (2 ^ b - 1) < 256 := by
      rw [Nat.div_lt_iff_lt_mul (by omega)]
      omega
    rw [Nat.mod_eq_of_lt hlt]
    exact div_add_half_eq_round _ _ hmodd
  · decide

/-- Witness for C7 at the spec's example channel: value 512 at depth 10. -/
theorem color_depth_round_spec_witness :
    color_to_u8_component 512 10 =
      roundNearest (512 * 255) (2 ^ (if (10 : Nat) = 0 then 8 else 10) - 1) ∧
    roundNearest (512 * 255) 1023 = 128 :=
  ⟨color_depth_round_spec.1 512 10 (by decide) (by decide), by decide⟩

/-! ## Shared state and the worker loops (`spawn_worker`, `src/lan.rs`)

The receiver loop's per-message state update and the sender loop's
per-iteration update are embedded as pure state transformers; the socket,
locks, sleeps and logging around them are I/O plumbing with no effect on the
updated record.  The outcome of the external I/O (`TcpStream::connect`,
the frame write) enters as a boolean parameter. -/

def ShapeInstruction.colorOf : ShapeInstruction → ColorRGB
  | .Rectangle r => r.color

/-- `SharedState` of `src/lan.rs`. -/
structure SharedState where
  connected : Bool
  shapes : List ShapeInstruction
  current_measure_colour : ColorRGB
  request_colour : ColorRGB
deriving Repr, DecidableEq

/-- `SharedState::default()`: disconnected, no shapes, zero colours. -/
def SharedState.default : SharedState :=
  { connected := false
    shapes := []
    current_measure_colour := ColorRGB.zero
    request_colour := ColorRGB.zero }

/-- The receiver loop's update on a successfully parsed measurement
(`spawn_worker`, `Ok(meas)` arm): mark connected; with shapes present store
them and take the first shape's colour, otherwise clear the shapes and take
the scalar echo. -/
def applyMeasurement (w : SharedState) (meas : MeasurementResult) :
    SharedState :=
  if !meas.shapes.isEmpty then
    { w with
      connected := true
      current_measure_colour :=
        ((meas.shapes.get? 0).map ShapeInstruction.colorOf).getD
          ⟨meas.red, meas.green, meas.blue⟩
      shapes := meas.shapes }
  else
    { w with
      connected := true
      current_measure_colour := ⟨meas.red, meas.green, meas.blue⟩
      shapes := [] }

/-- C8: every successfully parsed measurement marks the state connected;
with at least one shape the full shape sequence is stored and the first
shape's colour wins over the scalar echo; with no shapes the shape list is
cleared and the scalar red/green/blue echo becomes the measured colour.
The last conjunct runs the spec's end-to-end scenario: a reply carrying
only `<x>0.31</x><y>0.32</y>` against request `(10, 20, 30)`. -/
theorem receiver_update_spec :
    (∀ w : SharedState, ∀ meas : MeasurementResult,
      (applyMeasurement w meas).connected = true) ∧
    (∀ w : SharedState, ∀ meas : MeasurementResult, meas.shapes = [] →
      applyMeasurement w meas =
        { w with
          connected := true
          shapes := []
          current_measure_colour := ⟨meas.red, meas.green, meas.blue⟩ }) ∧
    (∀ w : SharedState, ∀ meas : MeasurementResult,
      ∀ s : ShapeInstruction, ∀ rest : List ShapeInstruction,
      meas.shapes = s :: rest →
      applyMeasurement w meas =
        { w with
          connected := true
          shapes := meas.shapes
          current_measure_colour := s.colorOf }) ∧
    (parse_measurement_events
      [.Start "CS_RMC" [], .Start "measurement" [], .Start "result" [],
       .Start "x" [], .Text "0.31", .End "x", .Start "y" [], .Text "0.32",
       .End "y", .End "result", .End "measurement", .End "CS_RMC"]
      10 20 30 =
      .ok { red := 10, green := 20, blue := 30,
            x := some (.num (mkRat 31 100)), y := some (.num (mkRat 8 25)),
            y_lum := none, shapes := [] } ∧
     applyMeasurement SharedState.default
        { red := 10, green := 20, blue := 30,
          x := some (.num (mkRat 31 100)), y := some (.num (mkRat 8 25)),
          y_lum := none, shapes := [] } =
        { SharedState.default with
          connected := true
          current_measure_colour := ⟨10, 20, 30⟩ }) := by
  refine ⟨?_, ?_, ?_, by rfl, by rfl⟩
  · intro w meas
    simp only [applyMeasurement]
    split <;> rfl
  · intro w meas h
    simp [applyMeasurement, h]
  · intro w meas s rest h
    simp [applyMeasurement, h, ShapeInstruction.colorOf]

/-- Witness for C8 at concrete states: a shapeless measurement echoes the
scalars; a one-rectangle measurement stores the shape and takes its colour.
-/
theorem receiver_update_spec_witness :
    applyMeasurement SharedState.default
      { red := 10, green := 20, blue := 30, x := none, y := none,
        y_lum := none, shapes := [] } =
      { connected := true, shapes := [],
        current_measure_colour := ⟨10, 20, 30⟩,
        request_colour := ColorRGB.zero } ∧
    applyMeasurement SharedState.default
      { red := 1, green := 2, blue := 3, x := none, y := none, y_lum := none,
        shapes := [.Rectangle ⟨⟨7, 8, 9⟩, ⟨.num 1, .num 1⟩⟩] } =
      { connected := true,
        shapes := [.Rectangle ⟨⟨7, 8, 9⟩, ⟨.num 1, .num 1⟩⟩],
        current_measure_colour := ⟨7, 8, 9⟩,
        request_colour := ColorRGB.zero } := by
  constructor
  · exact receiver_update_spec.2.1 SharedState.default _ rfl
  · exact receiver_update_spec.2.2.1 SharedState.default _
      (.Rectangle ⟨⟨7, 8, 9⟩, ⟨.num 1, .num 1⟩⟩) [] rfl

/-- Observable outcome of `spawn_worker`: whether the call returned an
error to its caller, the shared state it handed back, and whether worker
threads were spawned.  `connectOk` abstracts the external
`TcpStream::connect` result. -/
structure SpawnOutcome where
  returnedErr : Bool
  state : SharedState
  workerSpawned : Bool
deriving Repr, DecidableEq

/-- `spawn_worker` of `src/lan.rs` at its boundary: a failed connect is
logged, the stream is dropped, no threads are spawned — and the function
still returns `Ok` with the default (disconnected) shared state.  Only a
successful connect spawns the receiver/sender threads. -/
def spawn_worker (connectOk : Bool) : SpawnOutcome :=
  { returnedErr := false
    state := SharedState.default
    workerSpawned := connectOk }

/-- C9 counterexample: when the initial TCP connection fails,
`spawn_worker` does not return a connection error to its caller. -/
theorem spawn_connect_error_refuted :
    ¬ (spawn_worker false).returnedErr = true := by decide

/-- C9 (amended): when the initial TCP connection cannot be established,
`spawn_worker` logs the failure and returns `Ok` with the default shared
state — still marked disconnected — and no worker loop is created. -/
theorem spawn_connect_failure_spec :
    spawn_worker false =
      { returnedErr := false, state := SharedState.default,
        workerSpawned := false } ∧
    (spawn_worker false).state.connected = false :=
  ⟨rfl, rfl⟩

/-- One iteration of the sender loop of `spawn_worker` (lines 620-657):
`writeOk` abstracts the I/O result of `send_xml_on_stream` on the shared
socket; the returned boolean is whether the loop continues.  A successful
write sets `connected := true`; a failed write sets `connected := false`
and breaks the loop. -/
def senderIteration (w : SharedState) (writeOk : Bool) :
    SharedState × Bool :=
  if writeOk then ({ w with connected := true }, true)
  else ({ w with connected := false }, false)

/-- C10: after every successful measurement write, the sender loop sets
`connected := true` — from any state, in particular from the initial state
in which no response was ever received or parsed, so `connected = true`
does not imply a measurement response has ever arrived. -/
theorem sender_sets_connected_spec :
    (∀ w : SharedState, (senderIteration w true).1.connected = true ∧
      (senderIteration w true).2 = true) ∧
    (senderIteration SharedState.default true).1.connected = true ∧
    SharedState.default.connected = false :=
  ⟨fun w => ⟨rfl, rfl⟩, rfl, rfl⟩
